import Mathlib

/-!
Verification development for the deformable-convolution sampling pipeline of
`tensorlayer/layers/convolution.py` (shallow embedding).

Tensors are embedded as total functions from natural-number indices to exact
rationals (modelling float values exactly); reshape/transpose/tile steps are
embedded by the corresponding index arithmetic.  Natural-number division and
modulus implement the row-major flattening used by the source.
-/

namespace TensorLayer

/-- tf.clip_by_value: clamp `x` into the interval from `lo` to `hi`
(min of the max, as in TensorFlow). -/
def clip_by_value (x lo hi : ℚ) : ℚ := min (max x lo) hi

/-- Layout adapter `(b, h, w, c) -> (b*c, h, w)` (`_to_bc_h_w`): transpose to
`(b, c, h, w)` and merge the two leading axes, so merged index `m` holds batch
`m / C` and channel `m % C`. -/
def _to_bc_h_w (C : ℕ) (x : ℕ → ℕ → ℕ → ℕ → ℚ) : ℕ → ℕ → ℕ → ℚ :=
  fun m i j => x (m / C) i j (m % C)

/-- Layout adapter `(b*c, h, w, n) -> (b, h, w, n, c)` (`_to_b_h_w_n_c`):
split the leading axis as `(b, c)` (batch-major) and move the channel axis to
the end. -/
def _to_b_h_w_n_c (C : ℕ) (x : ℕ → ℕ → ℕ → ℕ → ℚ) :
    ℕ → ℕ → ℕ → ℕ → ℕ → ℚ :=
  fun b i j k c => x (b * C + c) i j k

/-- Row-major flattening of an `(N, H, W)` tensor to a rank-1 tensor, as the
corner gather flattens the feature map. -/
def tf_flatten_3d (H W : ℕ) (x : ℕ → ℕ → ℕ → ℚ) : ℕ → ℚ :=
  fun p => x (p / (H * W)) (p / W % H) (p % W)

/-- The flattened linear gather index `n*H*W + row*W + col` used for a corner
`(row, col)` of the batch slice `n`. -/
def flat_index (H W n : ℕ) (rc : ℤ × ℤ) : ℤ :=
  (n : ℤ) * (H * W) + rc.1 * (W : ℤ) + rc.2

/-- Modelled from the spec: the helper `_get_vals_by_coords` called by
`tf_batch_map_coordinates` is not among the provided source files.  Per the
spec it gathers the feature values of integer corner coordinates through a
flattened-index gather: flatten the `(N, H, W)` feature tensor and read the
linear position `n*H*W + row*W + col` for each tap's corner `(row, col)`. -/
def _get_vals_by_coords (H W : ℕ) (inputs : ℕ → ℕ → ℕ → ℚ)
    (coords : ℕ → ℕ → ℕ → ℕ → ℤ × ℤ) : ℕ → ℕ → ℕ → ℕ → ℚ :=
  fun n i j k =>
    tf_flatten_3d H W inputs (flat_index H W n (coords n i j k)).toNat

/-- Corner tensor `coords_lt`: componentwise floor of the coordinates. -/
def coords_lt (coords : ℕ → ℕ → ℕ → ℕ → ℚ × ℚ) : ℕ → ℕ → ℕ → ℕ → ℤ × ℤ :=
  fun n i j k => (⌊(coords n i j k).1⌋, ⌊(coords n i j k).2⌋)

/-- Corner tensor `coords_rb`: componentwise ceiling of the coordinates. -/
def coords_rb (coords : ℕ → ℕ → ℕ → ℕ → ℚ × ℚ) : ℕ → ℕ → ℕ → ℕ → ℤ × ℤ :=
  fun n i j k => (⌈(coords n i j k).1⌉, ⌈(coords n i j k).2⌉)

/-- Corner tensor `coords_lb`: first component of `coords_lt` stacked with the
second component of `coords_rb`, i.e. `(floor r, ceil q)`. -/
def coords_lb (coords : ℕ → ℕ → ℕ → ℕ → ℚ × ℚ) : ℕ → ℕ → ℕ → ℕ → ℤ × ℤ :=
  fun n i j k => ((coords_lt coords n i j k).1, (coords_rb coords n i j k).2)

/-- Corner tensor `coords_rt`: first component of `coords_rb` stacked with the
second component of `coords_lt`, i.e. `(ceil r, floor q)`. -/
def coords_rt (coords : ℕ → ℕ → ℕ → ℕ → ℚ × ℚ) : ℕ → ℕ → ℕ → ℕ → ℤ × ℤ :=
  fun n i j k => ((coords_rb coords n i j k).1, (coords_lt coords n i j k).2)

/-- `tf_batch_map_coordinates`: batched bilinear sampling of an `(N, H, W)`
feature tensor at an `(N, H, W, taps, 2)` coordinate tensor.  Four corner
tensors are built from floors and ceilings, their values are gathered through
the flattened-index gather, and the values are blended with the fractional
offset of the coordinates relative to the floor corner. -/
def tf_batch_map_coordinates (H W : ℕ) (inputs : ℕ → ℕ → ℕ → ℚ)
    (coords : ℕ → ℕ → ℕ → ℕ → ℚ × ℚ) : ℕ → ℕ → ℕ → ℕ → ℚ :=
  fun n i j k =>
    let vals_lt := _get_vals_by_coords H W inputs (coords_lt coords) n i j k
    let vals_rb := _get_vals_by_coords H W inputs (coords_rb coords) n i j k
    let vals_lb := _get_vals_by_coords H W inputs (coords_lb coords) n i j k
    let vals_rt := _get_vals_by_coords H W inputs (coords_rt coords) n i j k
    let off_1 : ℚ := (coords n i j k).1 - ((coords_lt coords n i j k).1 : ℚ)
    let off_2 : ℚ := (coords n i j k).2 - ((coords_lt coords n i j k).2 : ℚ)
    let vals_t := vals_lt + (vals_rt - vals_lt) * off_1
    let vals_b := vals_lb + (vals_rb - vals_lb) * off_1
    vals_t + (vals_b - vals_t) * off_2

/-- Reshape of the predicted offsets `(b, h, w, 2n) -> (b, h, w, n, 2)`:
tap `k` reads channels `2k` and `2k+1`. -/
def reshape_offsets (offsets : ℕ → ℕ → ℕ → ℕ → ℚ) :
    ℕ → ℕ → ℕ → ℕ → ℚ × ℚ :=
  fun b i j k => (offsets b i j (2 * k), offsets b i j (2 * k + 1))

/-- The absolute (pre-clip) coordinates of `tf_batch_map_offsets`: the static
grid, broadcast over the batch axis, plus the reshaped predicted offsets. -/
def resolved_coords (offsets : ℕ → ℕ → ℕ → ℕ → ℚ)
    (grid_offset : ℕ → ℕ → ℕ → ℚ × ℚ) : ℕ → ℕ → ℕ → ℕ → ℚ × ℚ :=
  fun b i j k =>
    ((grid_offset i j k).1 + (reshape_offsets offsets b i j k).1,
     (grid_offset i j k).2 + (reshape_offsets offsets b i j k).2)

/-- The clipping step of `tf_batch_map_offsets`: the row component is clipped
to the interval from `0` to `H - 1` and the column component to the interval
from `0` to `W - 1`, independently.  The integer subtraction of the source
commutes with the cast to the value type. -/
def clipped_coords (H W : ℕ) (offsets : ℕ → ℕ → ℕ → ℕ → ℚ)
    (grid_offset : ℕ → ℕ → ℕ → ℚ × ℚ) : ℕ → ℕ → ℕ → ℕ → ℚ × ℚ :=
  fun b i j k =>
    (clip_by_value (resolved_coords offsets grid_offset b i j k).1 0 ((H : ℚ) - 1),
     clip_by_value (resolved_coords offsets grid_offset b i j k).2 0 ((W : ℚ) - 1))

/-- tf.tile of the clipped coordinates along the leading axis by the channel
count: the tiled tensor at leading index `m` reads slice `m % B` of the
clipped coordinates (concatenation of whole copies). -/
def tiled_coords (B H W : ℕ) (offsets : ℕ → ℕ → ℕ → ℕ → ℚ)
    (grid_offset : ℕ → ℕ → ℕ → ℚ × ℚ) : ℕ → ℕ → ℕ → ℕ → ℚ × ℚ :=
  fun m i j k => clipped_coords H W offsets grid_offset (m % B) i j k

/-- `tf_batch_map_offsets`: flatten the input to `(b*c, h, w)`, resolve, clip
and tile the coordinates, sample with `tf_batch_map_coordinates`, and reshape
the result to `(b, h, w, n, c)`. -/
def tf_batch_map_offsets (B H W C : ℕ) (inputs : ℕ → ℕ → ℕ → ℕ → ℚ)
    (offsets : ℕ → ℕ → ℕ → ℕ → ℚ) (grid_offset : ℕ → ℕ → ℕ → ℚ × ℚ) :
    ℕ → ℕ → ℕ → ℕ → ℕ → ℚ :=
  _to_b_h_w_n_c C
    (tf_batch_map_coordinates H W (_to_bc_h_w C inputs)
      (tiled_coords B H W offsets grid_offset))

/-- tf.stack of `tf.meshgrid(tf.range kh, tf.range kw, indexing ij)`: the two
meshgrid outputs (`X a b = a` and `Y a b = b`, each of shape `(kh, kw)`) are
stacked along the leading axis, giving shape `(2, kh, kw)`. -/
def stacked_meshgrid (t a b : ℕ) : ℕ :=
  if t = 0 then a else b

/-- The per-tap kernel offsets of `DeformableConv2dLayer.__init__`
(`initial_offsets`): the `(2, kh, kw)` stacked meshgrid reshaped row-major to
`(kh*kw, 2)`, so entry `(m, axis)` reads flattened position `2*m + axis`. -/
def initial_offsets (kh kw m axis : ℕ) : ℕ :=
  stacked_meshgrid ((2 * m + axis) / (kh * kw))
    ((2 * m + axis) % (kh * kw) / kw) ((2 * m + axis) % kw)

/-- The base spatial grid of `DeformableConv2dLayer.__init__`: meshgrid over
`tf.range (-(kh-1)/2) (H - (kh-1)/2)` and the analogous column range, stacked
along the trailing axis, so position `(i, j)` holds
`(i - (kh-1)/2, j - (kw-1)/2)` (the python `int(..)` truncation of the
non-negative center agrees with natural division). -/
def base_grid (kh kw : ℕ) (i j : ℕ) : ℚ × ℚ :=
  ((i : ℚ) - (((kh - 1) / 2 : ℕ) : ℚ), (j : ℚ) - (((kw - 1) / 2 : ℕ) : ℚ))

/-- `grid_offset = grid + initial_offsets` of `DeformableConv2dLayer.__init__`:
the base grid, tiled over taps, plus the per-tap kernel offsets, tiled over
spatial positions. -/
def deformable_grid_offset (kh kw : ℕ) : ℕ → ℕ → ℕ → ℚ × ℚ :=
  fun i j k =>
    ((base_grid kh kw i j).1 + (initial_offsets kh kw k 0 : ℚ),
     (base_grid kh kw i j).2 + (initial_offsets kh kw k 1 : ℚ))

/-- The construction-time behaviour of `DeformableConv2dLayer.__init__` up to
the deformed sampling: the assert on the trailing dimension of the offset
layer's output runs first; only when it passes are the grid built and the
input sampled. -/
def deformable_conv2d_init (B H W C : ℕ) (inputs : ℕ → ℕ → ℕ → ℕ → ℚ)
    (offset_last_dim : ℕ) (offsets : ℕ → ℕ → ℕ → ℕ → ℚ) (kh kw : ℕ) :
    Except String (ℕ → ℕ → ℕ → ℕ → ℕ → ℚ) :=
  if offset_last_dim = 2 * kh * kw then
    Except.ok (tf_batch_map_offsets B H W C inputs offsets
      (deformable_grid_offset kh kw))
  else
    Except.error "AssertionError"

/-- The parameter bookkeeping of `DeformableConv2dLayer.__init__`: start from
a copy of the upstream layer's parameter list, extend it with those of the
offset layer's parameters that are not already in the upstream list, then
extend it with the new weight and bias.  Parameters are modelled by their
identities. -/
def deformable_all_params (layer_params offset_layer_params : List ℕ)
    (W b : ℕ) : List ℕ :=
  let all_params := layer_params
  let offset_params :=
    offset_layer_params.filter (fun p => decide (p ∉ layer_params))
  (all_params ++ offset_params) ++ [W, b]

/-- python int() truncation toward zero on an exact value. -/
def py_int (q : ℚ) : ℤ := if 0 ≤ q then ⌊q⌋ else ⌈q⌉

/-- The rank dispatch of `UpSampling2dLayer.__init__`: a rank-3 input scales
size by spatial dims `0` and `1`, a rank-4 input by spatial dims `1` and `2`,
and any other rank raises `Exception("Donot support shape ...")`. -/
def upsampling2d_size (input_shape : List ℕ) (is_scale : Bool)
    (size : List ℚ) : Except String (List ℚ) :=
  if input_shape.length = 3 then
    Except.ok (if is_scale then
      [((py_int (size.getD 0 0 * (input_shape.getD 0 0 : ℚ))) : ℚ),
       ((py_int (size.getD 1 0 * (input_shape.getD 1 0 : ℚ))) : ℚ)]
      else size)
  else if input_shape.length = 4 then
    Except.ok (if is_scale then
      [((py_int (size.getD 0 0 * (input_shape.getD 1 0 : ℚ))) : ℚ),
       ((py_int (size.getD 1 0 * (input_shape.getD 2 0 : ℚ))) : ℚ)]
      else size)
  else Except.error "Donot support shape"

/-- The rank dispatch of `DownSampling2dLayer.__init__`, which duplicates the
logic of `UpSampling2dLayer.__init__` verbatim. -/
def downsampling2d_size (input_shape : List ℕ) (is_scale : Bool)
    (size : List ℚ) : Except String (List ℚ) :=
  if input_shape.length = 3 then
    Except.ok (if is_scale then
      [((py_int (size.getD 0 0 * (input_shape.getD 0 0 : ℚ))) : ℚ),
       ((py_int (size.getD 1 0 * (input_shape.getD 1 0 : ℚ))) : ℚ)]
      else size)
  else if input_shape.length = 4 then
    Except.ok (if is_scale then
      [((py_int (size.getD 0 0 * (input_shape.getD 1 0 : ℚ))) : ℚ),
       ((py_int (size.getD 1 0 * (input_shape.getD 2 0 : ℚ))) : ℚ)]
      else size)
  else Except.error "Donot support shape"

/-- Following the claim's words, for comparison with the source sampler: the
claim names the corners `lt = (floor r, floor q)`, `rb = (ceil r, ceil q)`,
`lb = (ceil r, floor q)`, `rt = (floor r, ceil q)` and blends
`val_top = v_lt + (v_rt - v_lt) * frac_x`,
`val_bottom = v_lb + (v_rb - v_lb) * frac_x`,
`result = val_top + (val_bottom - val_top) * frac_y`, with `frac_x` the
fractional part of the first coordinate axis and `frac_y` of the second. -/
def claim_sampler (H W : ℕ) (inputs : ℕ → ℕ → ℕ → ℚ)
    (coords : ℕ → ℕ → ℕ → ℕ → ℚ × ℚ) : ℕ → ℕ → ℕ → ℕ → ℚ :=
  fun n i j k =>
    let c := coords n i j k
    let lt : ℤ × ℤ := (⌊c.1⌋, ⌊c.2⌋)
    let rb : ℤ × ℤ := (⌈c.1⌉, ⌈c.2⌉)
    let lb : ℤ × ℤ := (⌈c.1⌉, ⌊c.2⌋)
    let rt : ℤ × ℤ := (⌊c.1⌋, ⌈c.2⌉)
    let v_lt := tf_flatten_3d H W inputs (flat_index H W n lt).toNat
    let v_rb := tf_flatten_3d H W inputs (flat_index H W n rb).toNat
    let v_lb := tf_flatten_3d H W inputs (flat_index H W n lb).toNat
    let v_rt := tf_flatten_3d H W inputs (flat_index H W n rt).toNat
    let frac_x := c.1 - (lt.1 : ℚ)
    let frac_y := c.2 - (lt.2 : ℚ)
    let val_top := v_lt + (v_rt - v_lt) * frac_x
    let val_bottom := v_lb + (v_rb - v_lb) * frac_x
    val_top + (val_bottom - val_top) * frac_y

/-- Decomposition of the row-major linear index: dividing and taking remainders
recovers the three coordinates when the row and column are in range. -/
theorem flat_nat_decompose (H W n R Q : ℕ) (hR : R < H) (hQ : Q < W) :
    (n * (H * W) + R * W + Q) / (H * W) = n
    ∧ (n * (H * W) + R * W + Q) / W % H = R
    ∧ (n * (H * W) + R * W + Q) % W = Q := by
  have hW : 0 < W := Nat.pos_of_ne_zero (fun h => by omega)
  have hH : 0 < H := Nat.pos_of_ne_zero (fun h => by omega)
  have hHW : 0 < H * W := Nat.mul_pos hH hW
  have hsmall : Q + R * W < H * W := by
    calc Q + R * W < W + R * W := Nat.add_lt_add_right hQ _
    _ = (R + 1) * W := by ring
    _ ≤ H * W := Nat.mul_le_mul_right W (Nat.succ_le_of_lt hR)
  refine ⟨?_, ?_, ?_⟩
  · have h1 : n * (H * W) + R * W + Q = (Q + R * W) + n * (H * W) := by ring
    rw [h1, Nat.add_mul_div_right _ _ hHW, Nat.div_eq_of_lt hsmall, Nat.zero_add]
  · have h1 : n * (H * W) + R * W + Q = Q + (R + n * H) * W := by ring
    rw [h1, Nat.add_mul_div_right _ _ hW, Nat.div_eq_of_lt hQ, Nat.zero_add,
      Nat.add_mul_mod_self_right, Nat.mod_eq_of_lt hR]
  · have h1 : n * (H * W) + R * W + Q = Q + (R + n * H) * W := by ring
    rw [h1, Nat.add_mul_mod_self_right, Nat.mod_eq_of_lt hQ]

/-- The corner gather through the flattened index reads exactly the feature
value of the corner when both corner components are in range. -/
theorem gather_eq (H W n : ℕ) (x : ℕ → ℕ → ℕ → ℚ) (r c : ℤ)
    (hr0 : 0 ≤ r) (hrH : r < (H : ℤ)) (hc0 : 0 ≤ c) (hcW : c < (W : ℤ)) :
    tf_flatten_3d H W x (flat_index H W n (r, c)).toNat = x n r.toNat c.toNat := by
  obtain ⟨R, rfl⟩ := Int.eq_ofNat_of_zero_le hr0
  obtain ⟨Q, rfl⟩ := Int.eq_ofNat_of_zero_le hc0
  have hR : R < H := by exact_mod_cast hrH
  have hQ : Q < W := by exact_mod_cast hcW
  have hidx : (flat_index H W n ((R : ℤ), (Q : ℤ))).toNat
      = n * (H * W) + R * W + Q := by
    unfold flat_index
    rw [show ((n : ℤ) * ((H : ℤ) * (W : ℤ)) + ((R : ℤ), (Q : ℤ)).1 * (W : ℤ)
          + ((R : ℤ), (Q : ℤ)).2)
        = ((n * (H * W) + R * W + Q : ℕ) : ℤ) by push_cast; ring]
    exact Int.toNat_natCast _
  obtain ⟨hdiv, hmid, hmod⟩ := flat_nat_decompose H W n R Q hR hQ
  rw [hidx]
  unfold tf_flatten_3d
  rw [hdiv, hmid, hmod, Int.toNat_natCast, Int.toNat_natCast]

/-- C4: for every feature tensor and every coordinate whose two components are
whole numbers within bounds, the bilinear sampler returns exactly the feature
value at that position: all four corners coincide, the fractional parts are
zero, and the blend degenerates to an exact lookup. -/
theorem tf_batch_map_coordinates_integer_passthrough (H W : ℕ)
    (inputs : ℕ → ℕ → ℕ → ℚ) (coords : ℕ → ℕ → ℕ → ℕ → ℚ × ℚ)
    (n i j k R Q : ℕ) (hR : R < H) (hQ : Q < W)
    (hco : coords n i j k = ((R : ℚ), (Q : ℚ))) :
    tf_batch_map_coordinates H W inputs coords n i j k = inputs n R Q := by
  have hR0 : (0 : ℤ) ≤ (R : ℤ) := Int.ofNat_nonneg R
  have hQ0 : (0 : ℤ) ≤ (Q : ℤ) := Int.ofNat_nonneg Q
  have hRH : (R : ℤ) < (H : ℤ) := by exact_mod_cast hR
  have hQW : (Q : ℤ) < (W : ℤ) := by exact_mod_cast hQ
  unfold tf_batch_map_coordinates _get_vals_by_coords
  simp only [coords_lt, coords_rb, coords_lb, coords_rt, hco]
  simp only [Int.floor_natCast, Int.ceil_natCast]
  rw [gather_eq H W n inputs (R : ℤ) (Q : ℤ) hR0 hRH hQ0 hQW]
  simp only [Int.toNat_natCast]
  push_cast
  ring

/-- Closed witness for the exact-passthrough theorem: a 2 by 2 feature with a
distinguishing value at position (1, 1), sampled at the integer coordinate
(1, 1), returns that value exactly. -/
theorem tf_batch_map_coordinates_integer_passthrough_witness :
    tf_batch_map_coordinates 2 2
      (fun _ i j => if i = 1 ∧ j = 1 then 10 else 0)
      (fun _ _ _ _ => ((1 : ℚ), (1 : ℚ))) 0 0 0 0
      = (fun _ i j => if i = 1 ∧ j = 1 then (10 : ℚ) else 0) 0 1 1 :=
  tf_batch_map_coordinates_integer_passthrough 2 2
    (fun _ i j => if i = 1 ∧ j = 1 then 10 else 0)
    (fun _ _ _ _ => ((1 : ℚ), (1 : ℚ))) 0 0 0 0 1 1
    (by norm_num) (by norm_num) (by norm_num)

/-- A coordinate component bounded by the clipping invariant has floor and
ceiling in the integer range from `0` to `dim - 1`. -/
theorem floor_ceil_bounds (dim : ℕ) (x : ℚ) (h0 : 0 ≤ x) (h1 : x ≤ (dim : ℚ) - 1) :
    0 ≤ ⌊x⌋ ∧ ⌈x⌉ ≤ (dim : ℤ) - 1 ∧ ⌊x⌋ ≤ ⌈x⌉ := by
  refine ⟨Int.le_floor.mpr (by exact_mod_cast h0), ?_, Int.floor_le_ceil x⟩
  have : x ≤ (((dim : ℤ) - 1 : ℤ) : ℚ) := by push_cast; exact h1
  exact Int.ceil_le.mpr this

/-- C3 (amended): the bilinear sampler computes the four corner coordinates
`lt = (floor r, floor q)`, `rb = (ceil r, ceil q)`, `lb = (floor r, ceil q)`,
`rt = (ceil r, floor q)` and blends their gathered values as
`val_top = v_lt + (v_rt - v_lt) * frac_x`,
`val_bottom = v_lb + (v_rb - v_lb) * frac_x`,
`result = val_top + (val_bottom - val_top) * frac_y`, where `frac_x` is the
fractional part of the first coordinate axis (the components of `c - lt`) and
`frac_y` of the second; stated for in-range coordinates so the corner gathers
are direct feature lookups. -/
theorem tf_batch_map_coordinates_corner_formula (H W : ℕ)
    (inputs : ℕ → ℕ → ℕ → ℚ) (coords : ℕ → ℕ → ℕ → ℕ → ℚ × ℚ) (n i j k : ℕ)
    (h1 : 0 ≤ (coords n i j k).1) (h2 : (coords n i j k).1 ≤ (H : ℚ) - 1)
    (h3 : 0 ≤ (coords n i j k).2) (h4 : (coords n i j k).2 ≤ (W : ℚ) - 1) :
    tf_batch_map_coordinates H W inputs coords n i j k =
      (let r := (coords n i j k).1
       let q := (coords n i j k).2
       let v_lt := inputs n ⌊r⌋.toNat ⌊q⌋.toNat
       let v_rb := inputs n ⌈r⌉.toNat ⌈q⌉.toNat
       let v_lb := inputs n ⌊r⌋.toNat ⌈q⌉.toNat
       let v_rt := inputs n ⌈r⌉.toNat ⌊q⌋.toNat
       let frac_x := r - (⌊r⌋ : ℚ)
       let frac_y := q - (⌊q⌋ : ℚ)
       let val_top := v_lt + (v_rt - v_lt) * frac_x
       let val_bottom := v_lb + (v_rb - v_lb) * frac_x
       val_top + (val_bottom - val_top) * frac_y) := by
  obtain ⟨hrf0, hrc1, hrfc⟩ := floor_ceil_bounds H (coords n i j k).1 h1 h2
  obtain ⟨hqf0, hqc1, hqfc⟩ := floor_ceil_bounds W (coords n i j k).2 h3 h4
  have hrfH : ⌊(coords n i j k).1⌋ < (H : ℤ) := by omega
  have hrcH : ⌈(coords n i j k).1⌉ < (H : ℤ) := by omega
  have hrc0 : 0 ≤ ⌈(coords n i j k).1⌉ := by omega
  have hqfW : ⌊(coords n i j k).2⌋ < (W : ℤ) := by omega
  have hqcW : ⌈(coords n i j k).2⌉ < (W : ℤ) := by omega
  have hqc0 : 0 ≤ ⌈(coords n i j k).2⌉ := by omega
  unfold tf_batch_map_coordinates _get_vals_by_coords
  simp only [coords_lt, coords_rb, coords_lb, coords_rt]
  rw [gather_eq H W n inputs _ _ hrf0 hrfH hqf0 hqfW,
    gather_eq H W n inputs _ _ hrc0 hrcH hqc0 hqcW,
    gather_eq H W n inputs _ _ hrf0 hrfH hqc0 hqcW,
    gather_eq H W n inputs _ _ hrc0 hrcH hqf0 hqfW]

/-- Closed witness for the amended corner formula: the 2 by 2 feature map with
a single nonzero corner, sampled at the fractional coordinate (1/4, 3/4). -/
theorem tf_batch_map_coordinates_corner_formula_witness :
    tf_batch_map_coordinates 2 2
      (fun _ i j => if i = 1 ∧ j = 0 then 1 else 0)
      (fun _ _ _ _ => ((1 : ℚ)/4, (3 : ℚ)/4)) 0 0 0 0 =
      (let r := (((fun _ _ _ _ => ((1 : ℚ)/4, (3 : ℚ)/4)) :
          ℕ → ℕ → ℕ → ℕ → ℚ × ℚ) 0 0 0 0).1
       let q := (((fun _ _ _ _ => ((1 : ℚ)/4, (3 : ℚ)/4)) :
          ℕ → ℕ → ℕ → ℕ → ℚ × ℚ) 0 0 0 0).2
       let inputs : ℕ → ℕ → ℕ → ℚ := fun _ i j => if i = 1 ∧ j = 0 then 1 else 0
       let v_lt := inputs 0 ⌊r⌋.toNat ⌊q⌋.toNat
       let v_rb := inputs 0 ⌈r⌉.toNat ⌈q⌉.toNat
       let v_lb := inputs 0 ⌊r⌋.toNat ⌈q⌉.toNat
       let v_rt := inputs 0 ⌈r⌉.toNat ⌊q⌋.toNat
       let frac_x := r - (⌊r⌋ : ℚ)
       let frac_y := q - (⌊q⌋ : ℚ)
       let val_top := v_lt + (v_rt - v_lt) * frac_x
       let val_bottom := v_lb + (v_rb - v_lb) * frac_x
       val_top + (val_bottom - val_top) * frac_y) :=
  tf_batch_map_coordinates_corner_formula 2 2
    (fun _ i j => if i = 1 ∧ j = 0 then 1 else 0)
    (fun _ _ _ _ => ((1 : ℚ)/4, (3 : ℚ)/4)) 0 0 0 0
    (by norm_num) (by norm_num) (by norm_num) (by norm_num)

/-- C5: for every predicted-offset tensor, however large its values, every
element of the clipped coordinate tensor satisfies `0 ≤ row ≤ H - 1` and
`0 ≤ col ≤ W - 1`, each component clipped against its own axis bound. -/
theorem clipped_coords_bounds (H W : ℕ) (offsets : ℕ → ℕ → ℕ → ℕ → ℚ)
    (grid_offset : ℕ → ℕ → ℕ → ℚ × ℚ) (b i j k : ℕ)
    (hH : 1 ≤ H) (hW : 1 ≤ W) :
    0 ≤ (clipped_coords H W offsets grid_offset b i j k).1
    ∧ (clipped_coords H W offsets grid_offset b i j k).1 ≤ (H : ℚ) - 1
    ∧ 0 ≤ (clipped_coords H W offsets grid_offset b i j k).2
    ∧ (clipped_coords H W offsets grid_offset b i j k).2 ≤ (W : ℚ) - 1 := by
  have hH1 : (0 : ℚ) ≤ (H : ℚ) - 1 := by
    have h1 : (1 : ℚ) ≤ (H : ℚ) := by exact_mod_cast hH
    linarith
  have hW1 : (0 : ℚ) ≤ (W : ℚ) - 1 := by
    have h1 : (1 : ℚ) ≤ (W : ℚ) := by exact_mod_cast hW
    linarith
  unfold clipped_coords clip_by_value
  exact ⟨le_min (le_max_right _ _) hH1, min_le_right _ _,
    le_min (le_max_right _ _) hW1, min_le_right _ _⟩

/-- Closed witness for the bounds invariant: a huge positive row offset and a
huge negative column offset on a 2 by 2 map still land inside the bounds. -/
theorem clipped_coords_bounds_witness :
    0 ≤ (clipped_coords 2 2 (fun _ _ _ ch => if ch = 0 then 100000 else -100000)
          (fun _ _ _ => (0, 0)) 0 0 0 0).1
    ∧ (clipped_coords 2 2 (fun _ _ _ ch => if ch = 0 then 100000 else -100000)
          (fun _ _ _ => (0, 0)) 0 0 0 0).1 ≤ (2 : ℚ) - 1
    ∧ 0 ≤ (clipped_coords 2 2 (fun _ _ _ ch => if ch = 0 then 100000 else -100000)
          (fun _ _ _ => (0, 0)) 0 0 0 0).2
    ∧ (clipped_coords 2 2 (fun _ _ _ ch => if ch = 0 then 100000 else -100000)
          (fun _ _ _ => (0, 0)) 0 0 0 0).2 ≤ (2 : ℚ) - 1 :=
  clipped_coords_bounds 2 2 (fun _ _ _ ch => if ch = 0 then 100000 else -100000)
    (fun _ _ _ => (0, 0)) 0 0 0 0 (by norm_num) (by norm_num)

/-- The flattened gather index of an in-range corner is within the flattened
feature tensor. -/
theorem flat_index_bound (N H W n : ℕ) (r c : ℤ) (hn : n < N)
    (hr0 : 0 ≤ r) (hr1 : r ≤ (H : ℤ) - 1) (hc0 : 0 ≤ c) (hc1 : c ≤ (W : ℤ) - 1) :
    0 ≤ flat_index H W n (r, c)
    ∧ flat_index H W n (r, c) < (N : ℤ) * ((H : ℤ) * (W : ℤ)) := by
  unfold flat_index
  have hHW : (0 : ℤ) ≤ (H : ℤ) * (W : ℤ) := by positivity
  have hW0 : (0 : ℤ) ≤ (W : ℤ) := by positivity
  constructor
  · exact add_nonneg (add_nonneg (mul_nonneg (by positivity) hHW)
      (mul_nonneg hr0 hW0)) hc0
  · show (n : ℤ) * ((H : ℤ) * (W : ℤ)) + r * (W : ℤ) + c
        < (N : ℤ) * ((H : ℤ) * (W : ℤ))
    have hnN : (n : ℤ) ≤ (N : ℤ) - 1 := by
      have h0 : (n : ℤ) < (N : ℤ) := by exact_mod_cast hn
      omega
    have e1 : (n : ℤ) * ((H : ℤ) * (W : ℤ))
        ≤ ((N : ℤ) - 1) * ((H : ℤ) * (W : ℤ)) :=
      mul_le_mul_of_nonneg_right hnN hHW
    have e2 : r * (W : ℤ) ≤ ((H : ℤ) - 1) * (W : ℤ) :=
      mul_le_mul_of_nonneg_right hr1 hW0
    nlinarith [e1, e2, hc1]

/-- C10: when both components of a coordinate lie in the clipped ranges, all
four corner coordinates (floors and ceilings) do too, and every flattened
gather index `n*H*W + row*W + col` used by the bilinear sampler lies inside
the flattened `(N, H, W)` feature tensor. -/
theorem gather_indices_in_bounds (N H W : ℕ)
    (coords : ℕ → ℕ → ℕ → ℕ → ℚ × ℚ) (n i j k : ℕ) (hn : n < N)
    (h1 : 0 ≤ (coords n i j k).1) (h2 : (coords n i j k).1 ≤ (H : ℚ) - 1)
    (h3 : 0 ≤ (coords n i j k).2) (h4 : (coords n i j k).2 ≤ (W : ℚ) - 1) :
    ∀ rc ∈ [coords_lt coords n i j k, coords_rb coords n i j k,
        coords_lb coords n i j k, coords_rt coords n i j k],
      0 ≤ flat_index H W n rc
      ∧ flat_index H W n rc < (N : ℤ) * ((H : ℤ) * (W : ℤ)) := by
  obtain ⟨hrf0, hrc1, hrfc⟩ := floor_ceil_bounds H (coords n i j k).1 h1 h2
  obtain ⟨hqf0, hqc1, hqfc⟩ := floor_ceil_bounds W (coords n i j k).2 h3 h4
  have hrf1 : ⌊(coords n i j k).1⌋ ≤ (H : ℤ) - 1 := by omega
  have hrc0 : 0 ≤ ⌈(coords n i j k).1⌉ := by omega
  have hqf1 : ⌊(coords n i j k).2⌋ ≤ (W : ℤ) - 1 := by omega
  have hqc0 : 0 ≤ ⌈(coords n i j k).2⌉ := by omega
  intro rc hrc
  simp only [List.mem_cons, List.not_mem_nil, or_false] at hrc
  rcases hrc with rfl | rfl | rfl | rfl
  · simp only [coords_lt]
    exact flat_index_bound N H W n _ _ hn hrf0 hrf1 hqf0 hqf1
  · simp only [coords_rb]
    exact flat_index_bound N H W n _ _ hn hrc0 hrc1 hqc0 hqc1
  · simp only [coords_lb, coords_lt, coords_rb]
    exact flat_index_bound N H W n _ _ hn hrf0 hrf1 hqc0 hqc1
  · simp only [coords_rt, coords_lt, coords_rb]
    exact flat_index_bound N H W n _ _ hn hrc0 hrc1 hqf0 hqf1

/-- Closed witness for the gather-index safety theorem, on a single-slice
2 by 2 feature with the midpoint coordinate, instantiated at the rb corner. -/
theorem gather_indices_in_bounds_witness :
    0 ≤ flat_index 2 2 0 (coords_rb (fun _ _ _ _ => ((1 : ℚ)/2, (1 : ℚ)/2)) 0 0 0 0)
    ∧ flat_index 2 2 0 (coords_rb (fun _ _ _ _ => ((1 : ℚ)/2, (1 : ℚ)/2)) 0 0 0 0)
      < ((1 : ℕ) : ℤ) * (((2 : ℕ) : ℤ) * ((2 : ℕ) : ℤ)) :=
  gather_indices_in_bounds 1 2 2 (fun _ _ _ _ => ((1 : ℚ)/2, (1 : ℚ)/2)) 0 0 0 0
    (by norm_num) (by norm_num) (by norm_num) (by norm_num) (by norm_num)
    (coords_rb (fun _ _ _ _ => ((1 : ℚ)/2, (1 : ℚ)/2)) 0 0 0 0)
    (by simp)

/-- C6: on the 2 by 2 feature map with values 0, 0, 0, 10, sampling at the
fractional coordinate (1/2, 1/2) returns exactly 5/2, the equal-weight average
of the four corner values. -/
theorem tf_batch_map_coordinates_midpoint_example :
    tf_batch_map_coordinates 2 2
      (fun _ i j => if i = 1 ∧ j = 1 then 10 else 0)
      (fun _ _ _ _ => ((1 : ℚ)/2, (1 : ℚ)/2)) 0 0 0 0 = 5/2 := by
  have hc : ⌈(1 : ℚ)/2⌉ = 1 := by rw [Int.ceil_eq_iff]; norm_num
  have t2 : (2 : ℤ).toNat = 2 := rfl
  have t3 : (3 : ℤ).toNat = 3 := rfl
  norm_num [tf_batch_map_coordinates, _get_vals_by_coords, coords_lt, coords_rb,
    coords_lb, coords_rt, tf_flatten_3d, flat_index, hc, t2, t3]

/-- C1 (failing evaluation): two batch elements, two channels each, with both
channels of batch 0 holding the identical row of values 100, 7 on a 1 by 2
map; batch 0 predicts the zero offset while batch 1 predicts a column offset
of 1.  If every channel of batch 0 used batch 0's coordinates, both channels
would sample the value 100; instead channel 0 of batch 0 samples 100 (using
batch 0's coordinates) while channel 1 of batch 0 samples 7 (using batch 1's
coordinates), because the channel tiling repeats the coordinate tensor with a
leading channel-major axis while the flattened feature layout is
batch-major. -/
theorem tf_batch_map_offsets_mixes_batches :
    tf_batch_map_offsets 2 1 2 2
      (fun b _ j _ => if b = 0 then (if j = 0 then 100 else 7) else 0)
      (fun b _ _ ch => if b = 1 ∧ ch = 1 then 1 else 0)
      (fun _ _ _ => (0, 0)) 0 0 0 0 0 = 100
    ∧ tf_batch_map_offsets 2 1 2 2
      (fun b _ j _ => if b = 0 then (if j = 0 then 100 else 7) else 0)
      (fun b _ _ ch => if b = 1 ∧ ch = 1 then 1 else 0)
      (fun _ _ _ => (0, 0)) 0 0 0 0 1 = 7 := by
  have t2 : (2 : ℤ).toNat = 2 := rfl
  have t3 : (3 : ℤ).toNat = 3 := rfl
  constructor
  · norm_num [tf_batch_map_offsets, _to_b_h_w_n_c, _to_bc_h_w,
      tf_batch_map_coordinates, _get_vals_by_coords, coords_lt, coords_rb,
      coords_lb, coords_rt, tf_flatten_3d, flat_index, tiled_coords,
      clipped_coords, resolved_coords, reshape_offsets, clip_by_value, t2, t3]
  · norm_num [tf_batch_map_offsets, _to_b_h_w_n_c, _to_bc_h_w,
      tf_batch_map_coordinates, _get_vals_by_coords, coords_lt, coords_rb,
      coords_lb, coords_rt, tf_flatten_3d, flat_index, tiled_coords,
      clipped_coords, resolved_coords, reshape_offsets, clip_by_value, t2, t3]

/-- C2 (failing evaluation): the nine per-tap kernel offsets actually built at
construction for a 3 by 3 kernel at location (0, 0), in tap order.  They are
not the nine centered row-major offsets: the list contains (-1, 0), (1, -1)
and (0, 1) twice each and never contains (-1, 1), (0, -1) or (1, 0), because
the stacked meshgrid has shape (2, kh, kw) rather than the commented
(kh, kw, 2) when it is reshaped row-major to pairs. -/
theorem deformable_grid_offset_scrambled :
    deformable_grid_offset 3 3 0 0 0 = (-1, -1)
    ∧ deformable_grid_offset 3 3 0 0 1 = (-1, 0)
    ∧ deformable_grid_offset 3 3 0 0 2 = (0, 0)
    ∧ deformable_grid_offset 3 3 0 0 3 = (1, 1)
    ∧ deformable_grid_offset 3 3 0 0 4 = (1, -1)
    ∧ deformable_grid_offset 3 3 0 0 5 = (0, 1)
    ∧ deformable_grid_offset 3 3 0 0 6 = (-1, 0)
    ∧ deformable_grid_offset 3 3 0 0 7 = (1, -1)
    ∧ deformable_grid_offset 3 3 0 0 8 = (0, 1) := by
  refine ⟨?_, ?_, ?_, ?_, ?_, ?_, ?_, ?_, ?_⟩ <;>
    norm_num [deformable_grid_offset, base_grid, initial_offsets,
      stacked_meshgrid]

/-- C3 (counterexample): on the 2 by 2 feature map with the single nonzero
value 1 at position (1, 0), sampled at the fractional coordinate (1/4, 3/4),
the source sampler returns 1/16 while the formula stated by the claim (with
its corners lb = (ceil r, floor q) and rt = (floor r, ceil q)) yields 9/16:
the two disagree, so the claim's corner assignment does not describe the
code. -/
theorem tf_batch_map_coordinates_ne_claim_sampler :
    tf_batch_map_coordinates 2 2
      (fun _ i j => if i = 1 ∧ j = 0 then 1 else 0)
      (fun _ _ _ _ => ((1 : ℚ)/4, (3 : ℚ)/4)) 0 0 0 0 = 1/16
    ∧ claim_sampler 2 2
      (fun _ i j => if i = 1 ∧ j = 0 then 1 else 0)
      (fun _ _ _ _ => ((1 : ℚ)/4, (3 : ℚ)/4)) 0 0 0 0 = 9/16
    ∧ tf_batch_map_coordinates 2 2
      (fun _ i j => if i = 1 ∧ j = 0 then 1 else 0)
      (fun _ _ _ _ => ((1 : ℚ)/4, (3 : ℚ)/4)) 0 0 0 0
      ≠ claim_sampler 2 2
        (fun _ i j => if i = 1 ∧ j = 0 then 1 else 0)
        (fun _ _ _ _ => ((1 : ℚ)/4, (3 : ℚ)/4)) 0 0 0 0 := by
  have hc1 : ⌈(1 : ℚ)/4⌉ = 1 := by rw [Int.ceil_eq_iff]; norm_num
  have hc3 : ⌈(3 : ℚ)/4⌉ = 1 := by rw [Int.ceil_eq_iff]; norm_num
  have t2 : (2 : ℤ).toNat = 2 := rfl
  have t3 : (3 : ℤ).toNat = 3 := rfl
  have h1 : tf_batch_map_coordinates 2 2
      (fun _ i j => if i = 1 ∧ j = 0 then 1 else 0)
      (fun _ _ _ _ => ((1 : ℚ)/4, (3 : ℚ)/4)) 0 0 0 0 = 1/16 := by
    norm_num [tf_batch_map_coordinates, _get_vals_by_coords, coords_lt,
      coords_rb, coords_lb, coords_rt, tf_flatten_3d, flat_index, hc1, hc3,
      t2, t3]
  have h2 : claim_sampler 2 2
      (fun _ i j => if i = 1 ∧ j = 0 then 1 else 0)
      (fun _ _ _ _ => ((1 : ℚ)/4, (3 : ℚ)/4)) 0 0 0 0 = 9/16 := by
    norm_num [claim_sampler, tf_flatten_3d, flat_index, hc1, hc3, t2, t3]
  refine ⟨h1, h2, ?_⟩
  rw [h1, h2]
  norm_num

/-- C7: constructing a deformable layer whose offset tensor's trailing
dimension differs from twice the tap count fails with the construction-time
assertion error, before any output tensor is produced. -/
theorem deformable_conv2d_init_shape_mismatch (B H W C : ℕ)
    (inputs : ℕ → ℕ → ℕ → ℕ → ℚ) (offset_last_dim : ℕ)
    (offsets : ℕ → ℕ → ℕ → ℕ → ℚ) (kh kw : ℕ)
    (h : offset_last_dim ≠ 2 * kh * kw) :
    deformable_conv2d_init B H W C inputs offset_last_dim offsets kh kw
      = Except.error "AssertionError" := by
  unfold deformable_conv2d_init
  rw [if_neg h]

/-- Closed witness for the shape-check theorem: a 3 by 3 kernel with a
17-channel offset tensor (instead of 18) is rejected. -/
theorem deformable_conv2d_init_shape_mismatch_witness :
    deformable_conv2d_init 1 4 4 1 (fun _ _ _ _ => 0) 17 (fun _ _ _ _ => 0) 3 3
      = Except.error "AssertionError" :=
  deformable_conv2d_init_shape_mismatch 1 4 4 1 (fun _ _ _ _ => 0) 17
    (fun _ _ _ _ => 0) 3 3 (by norm_num)

/-- C8: the resize layers raise the unsupported-shape exception exactly for
input ranks other than 3 and 4: for any other rank both constructions return
the error, and for ranks 3 and 4 both produce a size without this error. -/
theorem resize_layers_rank_check (input_shape : List ℕ) (is_scale : Bool)
    (size : List ℚ) :
    (input_shape.length ≠ 3 → input_shape.length ≠ 4 →
      upsampling2d_size input_shape is_scale size
        = Except.error "Donot support shape"
      ∧ downsampling2d_size input_shape is_scale size
        = Except.error "Donot support shape")
    ∧ (input_shape.length = 3 ∨ input_shape.length = 4 →
      (∃ v, upsampling2d_size input_shape is_scale size = Except.ok v)
      ∧ ∃ v, downsampling2d_size input_shape is_scale size = Except.ok v) := by
  constructor
  · intro h3 h4
    constructor
    · unfold upsampling2d_size
      rw [if_neg h3, if_neg h4]
    · unfold downsampling2d_size
      rw [if_neg h3, if_neg h4]
  · intro h34
    rcases h34 with h3 | h4
    · constructor
      · exact ⟨_, by unfold upsampling2d_size; rw [if_pos h3]⟩
      · exact ⟨_, by unfold downsampling2d_size; rw [if_pos h3]⟩
    · have h3 : input_shape.length ≠ 3 := by omega
      constructor
      · exact ⟨_, by unfold upsampling2d_size; rw [if_neg h3, if_pos h4]⟩
      · exact ⟨_, by unfold downsampling2d_size; rw [if_neg h3, if_pos h4]⟩

/-- Closed witness for the rank check: a rank-5 input is rejected by both
resize layers and a rank-4 input is accepted by both. -/
theorem resize_layers_rank_check_witness :
    (upsampling2d_size [1, 2, 3, 4, 5] true [2, 2]
        = Except.error "Donot support shape"
      ∧ downsampling2d_size [1, 2, 3, 4, 5] true [2, 2]
        = Except.error "Donot support shape")
    ∧ ((∃ v, upsampling2d_size [1, 8, 8, 3] true [2, 2] = Except.ok v)
      ∧ ∃ v, downsampling2d_size [1, 8, 8, 3] true [2, 2] = Except.ok v) :=
  ⟨(resize_layers_rank_check [1, 2, 3, 4, 5] true [2, 2]).1
      (by norm_num) (by norm_num),
    (resize_layers_rank_check [1, 8, 8, 3] true [2, 2]).2 (Or.inr (by norm_num))⟩

/-- C9: the composed deformable layer's parameter list is the upstream list,
followed by the offset predictor's parameters not already in the upstream
list in their first-seen order, followed by the new weight and bias; under
the freshness assumptions of layer composition no parameter appears twice,
and on the concrete lists of the claim the result is [w1, w2, w3, Wd, bd]. -/
theorem deformable_all_params_dedup (A P : List ℕ) (W b : ℕ)
    (hA : A.Nodup) (hP : P.Nodup) (hWA : W ∉ A) (hWP : W ∉ P)
    (hbA : b ∉ A) (hbP : b ∉ P) (hWb : W ≠ b) :
    deformable_all_params A P W b
      = A ++ P.filter (fun p => decide (p ∉ A)) ++ [W, b]
    ∧ (deformable_all_params A P W b).Nodup
    ∧ deformable_all_params [1, 2] [1, 2, 3] 10 11 = [1, 2, 3, 10, 11] := by
  refine ⟨rfl, ?_, by decide⟩
  have hfil : (P.filter (fun p => decide (p ∉ A))).Nodup := hP.filter _
  have hdisj1 : A.Disjoint (P.filter (fun p => decide (p ∉ A))) := by
    intro x hxA hxF
    have hdec := List.of_mem_filter hxF
    simp only [decide_eq_true_eq] at hdec
    exact hdec hxA
  have hWb_nodup : ([W, b] : List ℕ).Nodup := by simp [hWb]
  have hdisj2 : (A ++ P.filter (fun p => decide (p ∉ A))).Disjoint [W, b] := by
    intro x hx hx2
    have hx' : x ∈ A ∨ x ∈ P.filter (fun p => decide (p ∉ A)) :=
      List.mem_append.mp hx
    have hx2' : x = W ∨ x = b := by simpa using hx2
    have hxAP : x ∈ A ∨ x ∈ P := by
      rcases hx' with h | h
      · exact Or.inl h
      · exact Or.inr (List.mem_of_mem_filter h)
    rcases hx2' with rfl | rfl
    · rcases hxAP with h | h
      · exact hWA h
      · exact hWP h
    · rcases hxAP with h | h
      · exact hbA h
      · exact hbP h
  show ((A ++ P.filter (fun p => decide (p ∉ A))) ++ [W, b]).Nodup
  exact List.nodup_append.mpr
    ⟨List.nodup_append.mpr ⟨hA, hfil, hdisj1⟩, hWb_nodup, hdisj2⟩

/-- Closed witness for the parameter-dedup theorem, at the concrete lists of
the claim: upstream [1, 2], offset predictor [1, 2, 3], weight 10, bias 11. -/
theorem deformable_all_params_dedup_witness :
    deformable_all_params [1, 2] [1, 2, 3] 10 11
      = [1, 2] ++ [1, 2, 3].filter (fun p => decide (p ∉ [1, 2])) ++ [10, 11]
    ∧ (deformable_all_params [1, 2] [1, 2, 3] 10 11).Nodup
    ∧ deformable_all_params [1, 2] [1, 2, 3] 10 11 = [1, 2, 3, 10, 11] :=
  deformable_all_params_dedup [1, 2] [1, 2, 3] 10 11
    (by decide) (by decide) (by decide) (by decide) (by decide) (by decide)
    (by decide)

end TensorLayer
